import Mathlib

/-!
Shallow embedding of the SmartStudentHub credential-verification scripts:
  * `src/credly_badge_id_extractor.py`
      - `extract_credly_id_from_url`
      - `resolve_credly_short_url`
      - `process_certificate_pdf_complete`
  * `src/Credliy.py`
      - `CredlyBadgeVerification.verify`

Text is modelled as `List Char`.  Python's case-insensitive regex matching is
modelled ASCII-wise (`Char.toLower`), which is the case relevant to every
URL/identifier handled by the program.  External collaborators (the HTTP
transport, `time.sleep`, `datetime.fromisoformat`, `datetime.now`) are inputs
of the embedded functions; the values the embedding records about them
(request counts, sleep durations) form the observable trace the theorems
speak about.
-/

namespace SmartStudentHub

/-- ASCII lowering of a character list (model of Python `str.lower()` for the
ASCII strings the program manipulates). -/
def lower (s : List Char) : List Char := s.map Char.toLower

/-- Boolean "is prefix of" on character lists (exact, case-sensitive). -/
def pfxOf : List Char → List Char → Bool
  | [], _ => true
  | _ :: _, [] => false
  | c :: cs, d :: ds => if c = d then pfxOf cs ds else false

/-- Model of the Python substring test `needle in hay`. -/
def pyInL (needle : List Char) : List Char → Bool
  | [] => pfxOf needle []
  | c :: t => pfxOf needle (c :: t) || pyInL needle t

/-- The substring `"credly.com"` the source tests URLs against. -/
def credlyDomL : List Char := "credly.com".toList

/-- The substring `"/go/"` marking a short-form URL. -/
def goSegL : List Char := "/go/".toList

/-- The substring `"/badges/"` marking a long-form URL. -/
def badgesSegL : List Char := "/badges/".toList

/-- Case-insensitive literal matcher: if (ASCII-ci) `needle` is a prefix of
`l`, return the consumed original-case characters and the remainder.  This is
how a literal piece of a Python regex compiled with `re.IGNORECASE` consumes
input. -/
def stripCi : List Char → List Char → Option (List Char × List Char)
  | [], l => some ([], l)
  | _ :: _, [] => none
  | n :: ns, c :: cs =>
    if Char.toLower c = Char.toLower n then
      match stripCi ns cs with
      | some (a, r) => some (c :: a, r)
      | none => none
    else none

/-- The regex character class `[0-9a-fA-F]`. -/
def isHexC (c : Char) : Bool :=
  (('0' ≤ c && c ≤ '9') || ('a' ≤ c && c ≤ 'f') || ('A' ≤ c && c ≤ 'F'))

/-- The regex character class `[a-zA-Z0-9]` (ASCII alphanumeric). -/
def isAlnumC (c : Char) : Bool :=
  (('0' ≤ c && c ≤ '9') || ('a' ≤ c && c ≤ 'z') || ('A' ≤ c && c ≤ 'Z'))

/-- The regex word-character class `\w` restricted to ASCII, as used by the
word-boundary assertion `\b`. -/
def isWordC (c : Char) : Bool := isAlnumC c || c = '_'

/-- The regex character class `[a-zA-Z0-9-]` of the long-URL pattern. -/
def isBadgeC (c : Char) : Bool := isAlnumC c || c = '-'

/-- Take exactly `n` characters satisfying `p` (the regex piece `X{n}`),
returning them together with the rest. -/
def takeN : Nat → (Char → Bool) → List Char → Option (List Char × List Char)
  | 0, _, l => some ([], l)
  | _ + 1, _, [] => none
  | n + 1, p, c :: cs =>
    if p c then
      match takeN n p cs with
      | some (a, r) => some (c :: a, r)
      | none => none
    else none

/-- Match the hyphen-separated hexadecimal groups of the GUID pattern
`[0-9a-fA-F]{8}-…{4}-…{4}-…{4}-…{12}` with the given group sizes, returning
the matched characters and the rest. -/
def matchGroups : List Nat → List Char → Option (List Char × List Char)
  | [], l => some ([], l)
  | n :: ns, l =>
    match takeN n isHexC l with
    | none => none
    | some (a, r) =>
      match ns with
      | [] => some (a, r)
      | _ :: _ =>
        match r with
        | '-' :: r2 =>
          match matchGroups ns r2 with
          | none => none
          | some (g, rest) => some (a ++ '-' :: g, rest)
        | _ => none

/-- The capture group of the GUID pattern: 8-4-4-4-12 hexadecimal groups. -/
def matchGuid (l : List Char) : Option (List Char × List Char) :=
  matchGroups [8, 4, 4, 4, 12] l

/-- Canonical 8-4-4-4-12 hexadecimal GUID shape (the Data Model's
`BadgeIdentifier` invariant): `g` matches the GUID pattern exactly. -/
def guidShape (g : List Char) : Bool :=
  match matchGuid g with
  | some (_, []) => true
  | _ => false

/-- One attempt of the GUID regex
`/badges/([0-9a-fA-F]{8}-…-…-…-…{12})/print` (with `re.IGNORECASE`) anchored
at the head of `l`; returns the captured group. -/
def matchSegAt (l : List Char) : Option (List Char) :=
  (stripCi ("/badges/".toList) l).bind fun br =>
    (matchGuid br.2).bind fun gr =>
      (stripCi ("/print".toList) gr.2).map fun _ => gr.1

/-- `re.search`: try the anchored matcher at every start position from left to
right, returning the first success. -/
def reSearch (m : List Char → Option (List Char)) : List Char → Option (List Char)
  | [] => m []
  | c :: t =>
    match m (c :: t) with
    | some g => some g
    | none => reSearch m t

/-- Embedding of `extract_credly_id_from_url`
(src/credly_badge_id_extractor.py, lines 11-19): search the URL for the GUID
pattern and return the captured group of the first match, else `None`. -/
def extract_credly_id_from_url (credly_url : List Char) : Option (List Char) :=
  reSearch matchSegAt credly_url

/-! ## Redirect Resolver (`resolve_credly_short_url`) -/

/-- Outcome of one `requests.get` attempt, as the source distinguishes them:
a 2xx final response (after redirects) with final URL, a
`requests.exceptions.Timeout`, another `RequestException` (connection error),
or a non-2xx status turned into an `HTTPError` by `raise_for_status`. -/
inductive AttemptResult where
  | ok (finalUrl : List Char)
  | timeout
  | reqError (name : String)
  | httpError (code : Nat)

/-- Whether the attempt returned successfully (no exception raised). -/
def AttemptResult.isOk : AttemptResult → Bool
  | .ok _ => true
  | _ => false

/-- Observable outcome of the resolver: returned value, number of GET
requests issued, and the `time.sleep` durations in order. -/
structure ResolveOut where
  result : Option (List Char)
  reqCount : Nat
  waits : List Nat
  deriving Repr

/-- The retry loop `for attempt in range(max_retries)` of
`resolve_credly_short_url`: `fuel` iterations remain and the loop variable is
`attempt`.  Failed non-final attempts sleep `2 ** attempt`. -/
def resolveGo (env : Nat → AttemptResult) (maxRetries : Nat) :
    Nat → Nat → Option (List Char) × Nat × List Nat
  | _, 0 => (none, 0, [])
  | attempt, fuel + 1 =>
    match env attempt with
    | .ok url => (some url, 1, [])
    | _ =>
      if attempt < maxRetries - 1 then
        let r := resolveGo env maxRetries (attempt + 1) fuel
        (r.1, r.2.1 + 1, 2 ^ attempt :: r.2.2)
      else (none, 1, [])

/-- Embedding of `resolve_credly_short_url`
(src/credly_badge_id_extractor.py, lines 21-51).  `env i` is the outcome the
network would give the `i`-th GET of this URL. -/
def resolve_credly_short_url (env : Nat → AttemptResult) (short_url : List Char)
    (max_retries : Nat) : ResolveOut :=
  if pyInL credlyDomL (lower short_url) then
    let r := resolveGo env max_retries 0 max_retries
    ⟨r.1, r.2.1, r.2.2⟩
  else ⟨none, 0, []⟩

/-! ## Document Scanner and Resolution Pipeline
(`process_certificate_pdf_complete`) -/

/-- A word as returned by pdfplumber's `page.extract_words` with the
attributes the source consumes: the text, and the `top`/`x0` coordinates used
for sorting and line grouping. -/
structure Word where
  text : List Char
  top : Int
  x0 : Int

/-- A pdfplumber link annot entry, restricted to the fields the source reads:
its `Subtype` value and, when the `A` dictionary is present, its optional
`URI` value. -/
structure LinkAnnot where
  subtype : String
  aDict : Option (Option (List Char))

/-- A document page: its extractable words and its annot list. -/
structure Page where
  words : List Word
  annots : List LinkAnnot

/-- Strict lexicographic order on `(top, x0)` used by
`words.sort(key=lambda w: (w['top'], w['x0']))`. -/
def wordLt (a b : Word) : Bool :=
  a.top < b.top || (a.top == b.top && a.x0 < b.x0)

/-- Stable insertion of a word: a later element goes after equal keys, as in
Python's stable sort. -/
def insWord (x : Word) : List Word → List Word
  | [] => [x]
  | y :: t => if wordLt x y then x :: y :: t else y :: insWord x t

/-- Stable sort of the page's words by `(top, x0)`. -/
def sortWords : List Word → List Word
  | [] => []
  | x :: t => insWord x (sortWords t)

/-- Python `str.strip()` on the whitespace the program can encounter. -/
def stripWs (l : List Char) : List Char :=
  ((l.dropWhile Char.isWhitespace).reverse.dropWhile Char.isWhitespace).reverse

/-- The line-reconstruction fold of `process_certificate_pdf_complete`
(lines 77-88): group sorted words into lines, starting a new line when
`last_top` is unset or `abs(word.top - last_top) > 5`; completed lines are
stripped and appended.  Note the source updates `last_top` only when a new
line starts. -/
def lineStep (acc : List (List Char)) (cur : List Char) (lastTop : Option Int) :
    List Word → List (List Char)
  | [] => if cur.isEmpty then acc else acc ++ [stripWs cur]
  | w :: ws =>
    let newline :=
      match lastTop with
      | none => true
      | some lt => (w.top - lt).natAbs > 5
    if newline then
      let acc2 := if cur.isEmpty then acc else acc ++ [stripWs cur]
      lineStep acc2 w.text (some w.top) ws
    else lineStep acc (cur ++ ' ' :: w.text) lastTop ws

/-- Lines contributed by one page: sort its words, then fold them into lines. -/
def buildLines (ws : List Word) : List (List Char) :=
  lineStep [] [] none (sortWords ws)

/-- The per-annot test of lines 94-99: `Subtype == '/Link'`, `'A' in
annotation`, a truthy `URI`, and `"credly.com" in link_uri.lower()`. -/
def annotUrl (a : LinkAnnot) : Option (List Char) :=
  if a.subtype = "/Link" then
    match a.aDict with
    | some (some u) =>
      if u.isEmpty then none
      else if pyInL credlyDomL (lower u) then some u else none
    | _ => none
  else none

/-- First matching link-annot target of a page (the inner `for annotation in
page.annots` loop with its `break`). -/
def pageMatchAnnot (p : Page) : Option (List Char) :=
  p.annots.findSome? annotUrl

/-- The `for page in pdf.pages` loop: accumulate each page's lines into
`full_text_list` and stop at the first page holding a matching link annot
(`if found_url: break`).  Returns the accumulated lines and the found URL. -/
def scanLoop : List Page → List (List Char) → List (List Char) × Option (List Char)
  | [], acc => (acc, none)
  | p :: rest, acc =>
    let acc2 := acc ++ buildLines p.words
    match pageMatchAnnot p with
    | some u => (acc2, some u)
    | none => scanLoop rest acc2

/-- `full_text = "\n".join(full_text_list)`. -/
def joinLines (ls : List (List Char)) : List Char :=
  List.intercalate ['\n'] ls

/-- The short-URL regex
`https?://(?:www\.)?credly\.com/go/[a-zA-Z0-9]{4,12}\b` (with IGNORECASE)
anchored at the head of `l`, returning the matched text.  The bounded greedy
repetition followed by `\b` succeeds exactly when the maximal alphanumeric
run after `/go/` has length 4..12 and the next character (if any) is not a
word character. -/
def matchShortAt (l : List Char) : Option (List Char) :=
  match stripCi ("http".toList) l with
  | none => none
  | some (c1, r1) =>
    let s? : List Char × List Char :=
      match r1 with
      | c :: t => if Char.toLower c = 's' then ([c], t) else ([], r1)
      | [] => ([], r1)
    match stripCi ("://".toList) s?.2 with
    | none => none
    | some (c3, r3) =>
      let w? : List Char × List Char :=
        match stripCi ("www.".toList) r3 with
        | some (a, r) => (a, r)
        | none => ([], r3)
      match stripCi ("credly.com/go/".toList) w?.2 with
      | none => none
      | some (c5, r5) =>
        let run := r5.takeWhile isAlnumC
        let rest := r5.dropWhile isAlnumC
        let boundary :=
          match rest with
          | [] => true
          | c :: _ => !isWordC c
        if 4 ≤ run.length ∧ run.length ≤ 12 ∧ boundary = true then
          some (c1 ++ s?.1 ++ c3 ++ w?.1 ++ c5 ++ run)
        else none

/-- The long-URL regex
`https?://(?:www\.)?credly\.com/badges/[a-zA-Z0-9-]+/print` (with IGNORECASE)
anchored at the head of `l`, returning the matched text.  The greedy class
run cannot contain `/`, so the match succeeds exactly when the maximal run is
nonempty and is followed by the literal `/print`. -/
def matchLongAt (l : List Char) : Option (List Char) :=
  match stripCi ("http".toList) l with
  | none => none
  | some (c1, r1) =>
    let s? : List Char × List Char :=
      match r1 with
      | c :: t => if Char.toLower c = 's' then ([c], t) else ([], r1)
      | [] => ([], r1)
    match stripCi ("://".toList) s?.2 with
    | none => none
    | some (c3, r3) =>
      let w? : List Char × List Char :=
        match stripCi ("www.".toList) r3 with
        | some (a, r) => (a, r)
        | none => ([], r3)
      match stripCi ("credly.com/badges/".toList) w?.2 with
      | none => none
      | some (c5, r5) =>
        let run := r5.takeWhile isBadgeC
        let rest := r5.dropWhile isBadgeC
        if run.length = 0 then none
        else
          match stripCi ("/print".toList) rest with
          | none => none
          | some (c6, _) => some (c1 ++ s?.1 ++ c3 ++ w?.1 ++ c5 ++ run ++ c6)

/-- The candidate URL the scanner settles on (lines 94-109): the first
matching link annot, else the first short-pattern match of the concatenated
text, else the first long-pattern match. -/
def docFound (pages : List Page) : Option (List Char) :=
  match (scanLoop pages []).2 with
  | some u => some u
  | none =>
    let ft := joinLines (scanLoop pages []).1
    match reSearch matchShortAt ft with
    | some m => some m
    | none => reSearch matchLongAt ft

/-- The concatenated extracted text of the processed pages. -/
def docText (pages : List Page) : List Char :=
  joinLines (scanLoop pages []).1

/-- Routing of the found URL (lines 111-116): a URL containing `/go/` goes to
the Redirect Resolver, one containing `/badges/` is passed through, any other
leaves `long_credly_url = None`.  Returns `(long_credly_url, reqCount,
waits)`. -/
def routeFound (env : Nat → AttemptResult) :
    Option (List Char) → Option (List Char) × Nat × List Nat
  | none => (none, 0, [])
  | some u =>
    if pyInL goSegL (lower u) then
      let ro := resolve_credly_short_url env u 3
      (ro.result, ro.reqCount, ro.waits)
    else if pyInL badgesSegL (lower u) then (some u, 0, [])
    else (none, 0, [])

/-- The dictionary returned by `process_certificate_pdf_complete`. -/
structure PdfResult where
  pdf_text : List Char
  credly_id : Option (List Char)
  final_long_url : Option (List Char)
  found_url_in_pdf : Option (List Char)

/-- A pipeline run: the returned dictionary plus the observable network
trace. -/
structure ProcOut where
  result : PdfResult
  reqCount : Nat
  waits : List Nat

/-- Input of the pipeline: the path points to no file (`os.path.exists`
false), or `pdfplumber.open` (or page extraction) raises with message `e`, or
the document opens into the given pages. -/
inductive PdfInput where
  | missing
  | openFail (e : List Char)
  | doc (pages : List Page)

/-- `"Error: File Not Found"`. -/
def fnfMsg : List Char := "Error: File Not Found".toList

/-- The `str(e)` of the `NameError` hit when a zero-page document leaves
`full_text` unbound at the `re.search` line (modelled message text). -/
def nameErrMsg : List Char := "name full_text is not defined".toList

/-- `f"Error during processing: {e}"`. -/
def procErr (e : List Char) : List Char :=
  "Error during processing: ".toList ++ e

/-- Embedding of `process_certificate_pdf_complete`
(src/credly_badge_id_extractor.py, lines 58-128).  The `except Exception`
handler is the `openFail`/empty-page branches; on a zero-page document the
source raises `NameError` at the `re.search(short_url_pattern, full_text, …)`
line because `full_text` was never assigned, and the handler absorbs it. -/
def process_certificate_pdf_complete (env : Nat → AttemptResult)
    (inp : PdfInput) : ProcOut :=
  match inp with
  | .missing => ⟨⟨fnfMsg, none, none, none⟩, 0, []⟩
  | .openFail e => ⟨⟨procErr e, none, none, none⟩, 0, []⟩
  | .doc pages =>
    match pages with
    | [] => ⟨⟨procErr nameErrMsg, none, none, none⟩, 0, []⟩
    | _ :: _ =>
      let found := docFound pages
      let rt := routeFound env found
      let cid :=
        match rt.1 with
        | some lu => if lu.isEmpty then none else extract_credly_id_from_url lu
        | none => none
      ⟨⟨docText pages, cid, rt.1, found⟩, rt.2.1, rt.2.2⟩

/-! ## Badge Verifier (`CredlyBadgeVerification.verify`, src/Credliy.py) -/

/-- Python values as they arise from `response.json()`: JSON null becomes
Python `None`, which is also what `dict.get` returns for a missing key. -/
inductive Json where
  | null
  | bool (b : Bool)
  | num (n : Int)
  | str (s : String)
  | arr (xs : List Json)
  | obj (fields : List (String × Json))

/-- Python `repr()` of such a value (element rendering inside collections);
quote characters are written as escapes. -/
def pyRepr : Json → String
  | .null => "None"
  | .bool b => if b then "True" else "False"
  | .num n => toString n
  | .str s => "\x27" ++ s ++ "\x27"
  | .arr xs => "[" ++ String.intercalate ", " (reprList xs) ++ "]"
  | .obj fs => "\x7b" ++ String.intercalate ", " (reprFields fs) ++ "\x7d"
where
  /-- `repr` of the elements of a list value. -/
  reprList : List Json → List String
    | [] => []
    | j :: t => pyRepr j :: reprList t
  /-- `repr` of the entries of a dict value. -/
  reprFields : List (String × Json) → List String
    | [] => []
    | (k, v) :: t => ("\x27" ++ k ++ "\x27: " ++ pyRepr v) :: reprFields t

/-- Python `str()` of such a value, as interpolated by an f-string. -/
def pyStr : Json → String
  | .str s => s
  | j => pyRepr j

/-- Python truthiness of such a value. -/
def jsonTruthy : Json → Bool
  | .null => false
  | .bool b => b
  | .num n => n != 0
  | .str s => s ≠ ""
  | .arr xs => !xs.isEmpty
  | .obj fs => !fs.isEmpty

/-- Python `x.get(k, d)`: defined on dicts, an `AttributeError` on anything
else. -/
def pyGetD (j : Json) (k : String) (d : Json) : Except String Json :=
  match j with
  | .obj fs => .ok ((fs.lookup k).getD d)
  | _ => .error "AttributeError"

/-- Python `x.get(k)` (default `None`). -/
def pyGet (j : Json) (k : String) : Except String Json :=
  pyGetD j k .null

/-- The HTTP response of the verification API query: final status code and
body (`none` when `response.json()` raises `ValueError`). -/
structure HttpResp where
  statusCode : Nat
  body : Option Json

/-- Outcome of `requests.get`: a response, or a raised `RequestException`
rendered as `msg`. -/
inductive ReqOutcome where
  | resp (r : HttpResp)
  | exc (msg : String)

/-- A parsed-and-comparable expiration instant as `datetime.fromisoformat`
yields it: its position on the UTC time line (seconds) and the rendering of
`expiration_date.date()`. -/
structure IsoDate where
  epochSec : Int
  dateRepr : String

/-- External collaborators of `verify`: the one HTTP request's outcome,
`datetime.fromisoformat` combined with aware-comparison (yielding `none` when
the source's `except (ValueError, TypeError)` would fire: an unparseable
string, or a naive result whose comparison with the aware `now` raises), and
`datetime.now(timezone.utc)` on the UTC time line. -/
structure VerifyEnv where
  http : ReqOutcome
  fromiso : String → Option IsoDate
  nowUtc : Int

/-- Result of a `verify` call: either a returned Python value (`some` = the
badge-data dict, `none` = Python `None`) or an uncaught exception, plus the
printed verification log lines. -/
structure VOut where
  result : Except String (Option Json)
  log : List String

/-- `"Verification Log: Badge ID cannot be empty."` -/
def logEmpty : String := "Verification Log: Badge ID cannot be empty."

/-- The 404 log line. -/
def logNotFound (bid : String) : String :=
  "Verification Log: Badge ID \"" ++ bid ++ "\" not found (404)."

/-- The `RequestException` log line. -/
def logApiFail (m : String) : String :=
  "Verification Log: API request failed: " ++ m

/-- The JSON-parse-failure log line. -/
def logJsonFail : String :=
  "Verification Log: Failed to parse JSON response from the API."

/-- The not-accepted-state log line: `f'Badge state is "{state}", not
"accepted".'`. -/
def logState (state : Json) : String :=
  "Verification Log: Badge state is \"" ++ pyStr state ++ "\", not \"accepted\"."

/-- The expired log line: `f'Badge expired on {expiration_date.date()}.'`. -/
def logExpired (d : String) : String :=
  "Verification Log: Badge expired on " ++ d ++ "."

/-- The unparseable-expiration log line: `f'Could not parse expiration date:
"{expires_at_str}"'`. -/
def logParseFail (ex : Json) : String :=
  "Verification Log: Could not parse expiration date: \"" ++ pyStr ex ++ "\""

/-- The success log line. -/
def logValid (bid : String) : String :=
  "Verification Log: Badge \"" ++ bid ++ "\" is technically valid. Extracting details..."

/-- Brief model of `str(requests.exceptions.HTTPError)` raised by
`raise_for_status` for status `c`. -/
def httpErrMsg (c : Nat) : String := toString c ++ " Error"

/-- Python `state != 'accepted'` specialised to the comparison the source
performs: true only for the string `"accepted"`. -/
def isAccepted : Json → Bool
  | .str s => s == "accepted"
  | _ => false

/-- Embedding of `CredlyBadgeVerification.verify` (src/Credliy.py, lines
5-57).  `badge_id` is `none` for a `None` argument; `raise_for_status`
raises exactly for 4xx/5xx.  The `.get` calls on the parsed body are the
source's lines 31 and 39: on a non-dict they raise `AttributeError`, which no
`except` clause catches. -/
def verify (env : VerifyEnv) (badge_id : Option String) : VOut :=
  match badge_id with
  | none => ⟨.ok none, [logEmpty]⟩
  | some bid =>
    if bid = "" then ⟨.ok none, [logEmpty]⟩
    else
      match env.http with
      | .exc m => ⟨.ok none, [logApiFail m]⟩
      | .resp r =>
        if r.statusCode = 404 then ⟨.ok none, [logNotFound bid]⟩
        else if 400 ≤ r.statusCode ∧ r.statusCode < 600 then
          ⟨.ok none, [logApiFail (httpErrMsg r.statusCode)]⟩
        else
          match r.body with
          | none => ⟨.ok none, [logJsonFail]⟩
          | some top =>
            match pyGetD top "data" (.obj []) with
            | .error e => ⟨.error e, []⟩
            | .ok badge_data =>
              match pyGet badge_data "state" with
              | .error e => ⟨.error e, []⟩
              | .ok state =>
                if isAccepted state = false then ⟨.ok none, [logState state]⟩
                else
                  match pyGet badge_data "expires_at" with
                  | .error e => ⟨.error e, []⟩
                  | .ok ex =>
                    if jsonTruthy ex then
                      match ex with
                      | .str s =>
                        match env.fromiso s with
                        | none => ⟨.ok none, [logParseFail ex]⟩
                        | some d =>
                          if d.epochSec < env.nowUtc then
                            ⟨.ok none, [logExpired d.dateRepr]⟩
                          else ⟨.ok (some badge_data), [logValid bid]⟩
                      | _ => ⟨.ok none, [logParseFail ex]⟩
                    else ⟨.ok (some badge_data), [logValid bid]⟩

/-! ## Spec-side vocabulary

Definitions below formalise wording of the specification (substring of a
reason, URL host and path, the GUID-segment containment predicate) so the
claims can be stated; they embed no program code. -/

/-- Python-style substring test on `String` (model of `needle in hay`). -/
def strContains (needle hay : String) : Bool :=
  pyInL needle.toList hay.toList

/-- The claim's notion of a URL containing a `/badges/<GUID>/print` path
segment: the string factors through the (case-insensitively matched)
delimiters around a canonical GUID. -/
def hasGuidSegment (s : List Char) : Prop :=
  ∃ pre b g p post, s = pre ++ (b ++ (g ++ (p ++ post))) ∧
    lower b = "/badges/".toList ∧ guidShape g = true ∧ lower p = "/print".toList

/-- Characters after the `://` scheme separator (spec-level URL reading). -/
def afterScheme : List Char → List Char
  | [] => []
  | ':' :: '/' :: '/' :: t => t
  | _ :: t => afterScheme t

/-- Spec-level host of a URL: the authority component before the first `/`,
`?` or `#` after the scheme. -/
def urlHost (u : List Char) : List Char :=
  (afterScheme u).takeWhile fun c => !(c == '/' || c == '?' || c == '#')

/-- Spec-level path of a URL: from the first `/` after the authority up to
the query or fragment. -/
def urlPath (u : List Char) : List Char :=
  ((afterScheme u).dropWhile fun c => !(c == '/' || c == '?' || c == '#')).takeWhile
    fun c => !(c == '?' || c == '#')

/-- Boolean suffix test. -/
def endsWithL (sfx l : List Char) : Bool := pfxOf sfx.reverse l.reverse

/-- A host belongs to the badge-issuing domain: it is `credly.com` or a
subdomain of it (case-insensitively). -/
def hostInCredlyDomain (h : List Char) : Bool :=
  lower h = "credly.com".toList || endsWithL (".credly.com".toList) (lower h)

/-! ## Concrete fixtures used by witnesses and counterexamples -/

/-- A network where every GET times out. -/
def allTimeoutEnv : Nat → AttemptResult := fun _ => .timeout

/-- The long-form badge URL of the spec's end-to-end example. -/
def longBadgeUrl : List Char :=
  "https://www.credly.com/badges/f5deaadd-8abb-45d9-abfa-99d600ce9245/print".toList

/-- A network where every GET succeeds, resolving to `longBadgeUrl`. -/
def okNetEnv : Nat → AttemptResult := fun _ => .ok longBadgeUrl

/-- The short-form URL of the spec's pattern-fallback example. -/
def shortGoUrl : List Char := "https://www.credly.com/go/ab12cd".toList

/-- A URL whose host is not in the badge-issuing domain but which contains
`credly.com` as a substring. -/
def c7Url : List Char := "http://evil.example/credly.com/go/ab12cd".toList

/-- A page with no link annots whose text contains `shortGoUrl`. -/
def c2Page : Page := ⟨[⟨shortGoUrl, 0, 0⟩], []⟩

/-- A page whose only link annot targets `longBadgeUrl`. -/
def annPage : Page := ⟨[], [⟨"/Link", some (some longBadgeUrl)⟩]⟩

/-- An annot target whose host is outside the badge-issuing domain but which
contains `credly.com` as a substring. -/
def evilAnnotUrl : List Char := "https://evil.example/credly.com/x".toList

/-- A page whose text contains `shortGoUrl` and whose annot list holds the
`evilAnnotUrl` link first and a genuine credly.com badge link second. -/
def evilPage : Page :=
  ⟨[⟨shortGoUrl, 0, 0⟩],
   [⟨"/Link", some (some evilAnnotUrl)⟩, ⟨"/Link", some (some longBadgeUrl)⟩]⟩

/-- A credly.com URL whose path contains neither `/go/` nor `/badges/`; the
`/go/` occurrence sits in the query string. -/
def c10Url : List Char := "https://www.credly.com/profile?next=/go/ab12cd".toList

/-- A page whose only link annot targets `c10Url`. -/
def c10Page : Page := ⟨[], [⟨"/Link", some (some c10Url)⟩]⟩

/-- A credly.com URL containing neither `/go/` nor `/badges/` anywhere. -/
def nonBadgeUrl : List Char := "https://www.credly.com/users/jane".toList

/-- A page whose only link annot targets `nonBadgeUrl`. -/
def nonBadgePage : Page := ⟨[], [⟨"/Link", some (some nonBadgeUrl)⟩]⟩

/-- A GUID-shaped badge identifier (the spec's end-to-end example). -/
def guidStr : String := "f5deaadd-8abb-45d9-abfa-99d600ce9245"

/-- `datetime.fromisoformat` fixture: parses exactly the spec's example
timestamp, placing it at 2020-01-01T00:00:00Z. -/
def fixtureIso : String → Option IsoDate :=
  fun s =>
    if s = "2020-01-01T00:00:00+00:00" then some ⟨1577836800, "2020-01-01"⟩
    else none

/-- A current instant well after 2020 (2025-10-12T00:00:00Z). -/
def fixtureNow : Int := 1760227200

/-- Record payload that is accepted but expired in 2020. -/
def expiredData : Json :=
  .obj [("state", .str "accepted"),
        ("expires_at", .str "2020-01-01T00:00:00+00:00")]

/-- API body wrapping `expiredData`. -/
def expiredBody : Json := .obj [("data", expiredData)]

/-- Environment serving `expiredBody` with status 200. -/
def c3Env : VerifyEnv := ⟨.resp ⟨200, some expiredBody⟩, fixtureIso, fixtureNow⟩

/-- Record payload that is accepted with no expiration. -/
def acceptedData : Json :=
  .obj [("state", .str "accepted"), ("issued_to", .str "Jane Doe")]

/-- API body wrapping `acceptedData`. -/
def acceptedBody : Json := .obj [("data", acceptedData)]

/-- Environment serving `acceptedBody` with status 200. -/
def c4Env : VerifyEnv := ⟨.resp ⟨200, some acceptedBody⟩, fixtureIso, fixtureNow⟩

/-- API body that parses as JSON but whose `data` field is the number 5, not
an object. -/
def c8Body : Json := .obj [("data", .num 5)]

/-- Environment serving `c8Body` with status 200. -/
def c8Env : VerifyEnv := ⟨.resp ⟨200, some c8Body⟩, fixtureIso, fixtureNow⟩

/-! ## Substring lemmas -/

theorem pfxOf_self_append (n b : List Char) : pfxOf n (n ++ b) = true := by
  induction n with
  | nil => simp [pfxOf]
  | cons c cs ih => simp [pfxOf, ih]

theorem pyInL_of_pfxOf (n l : List Char) (h : pfxOf n l = true) : pyInL n l = true := by
  cases l with
  | nil => simpa [pyInL] using h
  | cons c t => simp [pyInL, h]

theorem pyInL_cons (n : List Char) (c : Char) (t : List Char) (h : pyInL n t = true) :
    pyInL n (c :: t) = true := by
  simp [pyInL, h]

theorem pyInL_append_left (n a l : List Char) (h : pyInL n l = true) :
    pyInL n (a ++ l) = true := by
  induction a with
  | nil => simpa
  | cons c cs ih => simpa using pyInL_cons n c (cs ++ l) ih

theorem pyInL_append_mid (n a b : List Char) : pyInL n (a ++ (n ++ b)) = true :=
  pyInL_append_left n a (n ++ b) (pyInL_of_pfxOf n (n ++ b) (pfxOf_self_append n b))

theorem strContains_mid (n a b : String) : strContains n (a ++ n ++ b) = true := by
  have h : (a ++ n ++ b).toList = a.toList ++ (n.toList ++ b.toList) := by
    simp [String.toList, List.append_assoc]
  unfold strContains
  rw [h]
  exact pyInL_append_mid _ _ _

/-! ## `stripCi` soundness and completeness -/

theorem stripCi_sound : ∀ (n l a r : List Char),
    stripCi n l = some (a, r) → l = a ++ r ∧ lower a = lower n := by
  intro n
  induction n with
  | nil =>
    intro l a r h
    simp [stripCi] at h
    rcases h with ⟨rfl, rfl⟩
    simp [lower]
  | cons x xs ih =>
    intro l a r h
    match l with
    | [] => simp [stripCi] at h
    | c :: cs =>
      by_cases hc : Char.toLower c = Char.toLower x
      · simp only [stripCi, if_pos hc] at h
        cases hrec : stripCi xs cs with
        | none => rw [hrec] at h; exact absurd h (by simp)
        | some pr =>
          obtain ⟨a2, r2⟩ := pr
          rw [hrec] at h
          simp at h
          obtain ⟨rfl, rfl⟩ := h
          obtain ⟨heq, hlow⟩ := ih cs a2 r2 hrec
          subst heq
          simp [lower] at hlow ⊢
          exact ⟨hc, hlow⟩
      · simp [stripCi, if_neg hc] at h

theorem stripCi_complete : ∀ (n a : List Char), lower a = lower n →
    ∀ r, stripCi n (a ++ r) = some (a, r) := by
  intro n
  induction n with
  | nil =>
    intro a ha r
    have : a = [] := by simpa [lower] using ha
    subst this
    simp [stripCi]
  | cons x xs ih =>
    intro a ha r
    match a with
    | [] => simp [lower] at ha
    | c :: cs =>
      simp only [lower, List.map_cons, List.cons.injEq] at ha
      obtain ⟨h1, h2⟩ := ha
      simp [stripCi, if_pos h1, ih cs (by simpa [lower] using h2) r]

/-! ## `takeN` soundness and completeness -/

theorem takeN_sound : ∀ (n : Nat) (p : Char → Bool) (l a r : List Char),
    takeN n p l = some (a, r) → l = a ++ r ∧ a.length = n ∧ ∀ c ∈ a, p c = true := by
  intro n
  induction n with
  | zero =>
    intro p l a r h
    simp [takeN] at h
    rcases h with ⟨rfl, rfl⟩
    simp
  | succ m ih =>
    intro p l a r h
    match l with
    | [] => simp [takeN] at h
    | c :: cs =>
      by_cases hc : p c
      · simp only [takeN, if_pos hc] at h
        cases hrec : takeN m p cs with
        | none => rw [hrec] at h; exact absurd h (by simp)
        | some pr =>
          obtain ⟨a2, r2⟩ := pr
          rw [hrec] at h
          simp at h
          obtain ⟨rfl, rfl⟩ := h
          obtain ⟨heq, hlen, hall⟩ := ih p cs a2 r2 hrec
          subst heq
          refine ⟨rfl, by simp [hlen], ?_⟩
          intro d hd
          rcases List.mem_cons.mp hd with rfl | hd2
          · exact hc
          · exact hall d hd2
      · simp [takeN, if_neg hc] at h

theorem takeN_complete : ∀ (a : List Char) (p : Char → Bool),
    (∀ c ∈ a, p c = true) → ∀ r, takeN a.length p (a ++ r) = some (a, r) := by
  intro a
  induction a with
  | nil => intro p _ r; simp [takeN]
  | cons c cs ih =>
    intro p hall r
    have hc : p c = true := hall c (by simp)
    have hcs : ∀ d ∈ cs, p d = true := fun d hd => hall d (by simp [hd])
    simp [takeN, if_pos hc, ih p hcs r]

/-! ## GUID matcher lemmas -/

theorem matchGroups_sound : ∀ (ns : List Nat) (l g r : List Char),
    matchGroups ns l = some (g, r) → l = g ++ r := by
  intro ns
  induction ns with
  | nil =>
    intro l g r h
    simp [matchGroups] at h
    rcases h with ⟨rfl, rfl⟩
    simp
  | cons n ns' ih =>
    intro l g r h
    simp only [matchGroups] at h
    cases htk : takeN n isHexC l with
    | none => rw [htk] at h; exact absurd h (by simp)
    | some pr =>
      obtain ⟨a, r1⟩ := pr
      rw [htk] at h
      obtain ⟨heq, _, _⟩ := takeN_sound n isHexC l a r1 htk
      subst heq
      match ns' with
      | [] =>
        simp at h
        obtain ⟨rfl, rfl⟩ := h
        rfl
      | m :: t =>
        match r1 with
        | [] => simp at h
        | c :: r2 =>
          by_cases hc : c = '-'
          · subst hc
            simp only at h
            cases hrec : matchGroups (m :: t) r2 with
            | none => rw [hrec] at h; exact absurd h (by simp)
            | some pr2 =>
              obtain ⟨g2, rest⟩ := pr2
              rw [hrec] at h
              simp at h
              obtain ⟨rfl, rfl⟩ := h
              have := ih r2 g2 rest hrec
              subst this
              simp
          · exact absurd h (by cases c; simp_all)

theorem matchGroups_rerun : ∀ (ns : List Nat) (l g r : List Char),
    matchGroups ns l = some (g, r) → ∀ r', matchGroups ns (g ++ r') = some (g, r') := by
  intro ns
  induction ns with
  | nil =>
    intro l g r h r'
    simp [matchGroups] at h
    rcases h with ⟨rfl, rfl⟩
    simp [matchGroups]
  | cons n ns' ih =>
    intro l g r h r'
    simp only [matchGroups] at h
    cases htk : takeN n isHexC l with
    | none => rw [htk] at h; exact absurd h (by simp)
    | some pr =>
      obtain ⟨a, r1⟩ := pr
      rw [htk] at h
      obtain ⟨heq, hlen, hall⟩ := takeN_sound n isHexC l a r1 htk
      match ns' with
      | [] =>
        simp at h
        obtain ⟨rfl, rfl⟩ := h
        have hta := takeN_complete a isHexC hall r'
        rw [hlen] at hta
        simp [matchGroups, hta]
      | m :: t =>
        match r1 with
        | [] => simp at h
        | c :: r2 =>
          by_cases hc : c = '-'
          · subst hc
            simp only at h
            cases hrec : matchGroups (m :: t) r2 with
            | none => rw [hrec] at h; exact absurd h (by simp)
            | some pr2 =>
              obtain ⟨g2, rest⟩ := pr2
              rw [hrec] at h
              simp at h
              obtain ⟨rfl, rfl⟩ := h
              have hta : takeN n isHexC (a ++ '-' :: (g2 ++ r')) = some (a, '-' :: (g2 ++ r')) := by
                have h' := takeN_complete a isHexC hall ('-' :: (g2 ++ r'))
                rw [hlen] at h'
                exact h'
              have hrec2 := ih r2 g2 rest hrec r'
              have hassoc : (a ++ '-' :: g2) ++ r' = a ++ '-' :: (g2 ++ r') := by simp
              rw [hassoc, matchGroups, hta]
              simp [hrec2]
          · exact absurd h (by cases c; simp_all)

theorem guidShape_of_matchGuid (l g r : List Char) (h : matchGuid l = some (g, r)) :
    guidShape g = true := by
  have h2 := matchGroups_rerun [8, 4, 4, 4, 12] l g r h []
  rw [List.append_nil] at h2
  simp [guidShape, matchGuid, h2]

theorem matchGuid_of_guidShape (g : List Char) (h : guidShape g = true) :
    ∀ r', matchGuid (g ++ r') = some (g, r') := by
  intro r'
  unfold guidShape at h
  cases hg : matchGuid g with
  | none => rw [hg] at h; simp at h
  | some pr =>
    obtain ⟨g2, rest⟩ := pr
    rw [hg] at h
    match rest, h with
    | [], _ =>
      have := matchGroups_sound [8, 4, 4, 4, 12] g g2 [] hg
      rw [List.append_nil] at this
      subst this
      exact matchGroups_rerun [8, 4, 4, 4, 12] g g [] hg r'

/-! ## `matchSegAt` soundness and completeness -/

theorem matchSegAt_sound (l g : List Char) (h : matchSegAt l = some g) :
    guidShape g = true ∧
      ∃ b p rest, l = b ++ (g ++ (p ++ rest)) ∧
        lower b = "/badges/".toList ∧ lower p = "/print".toList := by
  unfold matchSegAt at h
  rw [Option.bind_eq_some] at h
  obtain ⟨⟨b, r1⟩, h1, h⟩ := h
  rw [Option.bind_eq_some] at h
  obtain ⟨⟨g2, r2⟩, h2, h⟩ := h
  rw [Option.map_eq_some'] at h
  obtain ⟨⟨p, r3⟩, h3, hg⟩ := h
  simp only at h2 h3 hg
  subst hg
  obtain ⟨hL1, hlow1⟩ := stripCi_sound _ l b r1 h1
  have hr1 := matchGroups_sound [8, 4, 4, 4, 12] r1 g2 r2 h2
  obtain ⟨hL3, hlow3⟩ := stripCi_sound _ r2 p r3 h3
  refine ⟨guidShape_of_matchGuid r1 g2 r2 h2, b, p, r3, ?_, ?_, ?_⟩
  · rw [hL1, hr1, hL3]
  · rw [hlow1]; decide
  · rw [hlow3]; decide

theorem matchSegAt_complete (b g p rest : List Char)
    (hb : lower b = "/badges/".toList) (hg : guidShape g = true)
    (hp : lower p = "/print".toList) :
    matchSegAt (b ++ (g ++ (p ++ rest))) = some g := by
  have hlowb : lower b = lower ("/badges/".toList) := by rw [hb]; decide
  have hlowp : lower p = lower ("/print".toList) := by rw [hp]; decide
  have h1 := stripCi_complete ("/badges/".toList) b hlowb (g ++ (p ++ rest))
  have h2 := matchGuid_of_guidShape g hg (p ++ rest)
  have h3 := stripCi_complete ("/print".toList) p hlowp rest
  unfold matchSegAt
  rw [h1, Option.some_bind]
  simp only
  rw [h2, Option.some_bind]
  simp only
  rw [h3, Option.map_some']

/-! ## `reSearch` lemmas -/

theorem reSearch_sound (m : List Char → Option (List Char)) :
    ∀ (l g : List Char), reSearch m l = some g →
      ∃ pre suf, l = pre ++ suf ∧ m suf = some g := by
  intro l
  induction l with
  | nil =>
    intro g h
    exact ⟨[], [], rfl, by simpa [reSearch] using h⟩
  | cons c t ih =>
    intro g h
    cases hm : m (c :: t) with
    | some g2 =>
      simp [reSearch, hm] at h
      exact ⟨[], c :: t, rfl, by rw [hm, h]⟩
    | none =>
      simp [reSearch, hm] at h
      obtain ⟨pre, suf, heq, hsuf⟩ := ih g h
      exact ⟨c :: pre, suf, by simp [heq], hsuf⟩

theorem reSearch_complete (m : List Char → Option (List Char)) :
    ∀ (pre suf g : List Char), m suf = some g →
      (reSearch m (pre ++ suf)).isSome = true := by
  intro pre
  induction pre with
  | nil =>
    intro suf g h
    cases suf with
    | nil => simp [reSearch, h]
    | cons c t => simp [reSearch, h]
  | cons x xs ih =>
    intro suf g h
    cases hm : m (x :: (xs ++ suf)) with
    | some g2 => simp [reSearch, hm]
    | none => simpa [reSearch, hm] using ih suf g h

/-! ## Identifier Extractor soundness and completeness -/

theorem extract_sound (s g : List Char) (h : extract_credly_id_from_url s = some g) :
    guidShape g = true ∧
      ∃ pre b p post, s = pre ++ (b ++ (g ++ (p ++ post))) ∧
        lower b = "/badges/".toList ∧ lower p = "/print".toList := by
  obtain ⟨pre, suf, heq, hsuf⟩ := reSearch_sound matchSegAt s g h
  obtain ⟨hshape, b, p, rest, hseq, hlb, hlp⟩ := matchSegAt_sound suf g hsuf
  exact ⟨hshape, pre, b, p, rest, by rw [heq, hseq], hlb, hlp⟩

theorem extract_isSome_iff (s : List Char) :
    (extract_credly_id_from_url s).isSome = true ↔ hasGuidSegment s := by
  constructor
  · intro h
    obtain ⟨g, hg⟩ := Option.isSome_iff_exists.mp h
    obtain ⟨hshape, pre, b, p, post, heq, hlb, hlp⟩ := extract_sound s g hg
    exact ⟨pre, b, g, p, post, heq, hlb, hshape, hlp⟩
  · rintro ⟨pre, b, g, p, post, heq, hlb, hshape, hlp⟩
    subst heq
    exact reSearch_complete matchSegAt pre (b ++ (g ++ (p ++ post))) g
      (matchSegAt_complete b g p post hlb hshape hlp)

theorem extract_guidShape (s g : List Char) (h : extract_credly_id_from_url s = some g) :
    guidShape g = true :=
  (extract_sound s g h).1

/-! ## Scanner loop lemmas -/

theorem scanLoop_found (u : List Char) : ∀ (pre : List Page) (p : Page) (post : List Page)
    (acc : List (List Char)), (∀ q ∈ pre, pageMatchAnnot q = none) →
    pageMatchAnnot p = some u →
    (scanLoop (pre ++ p :: post) acc).2 = some u := by
  intro pre
  induction pre with
  | nil => intro p post acc _ hp; simp [scanLoop, hp]
  | cons x xs ih =>
    intro p post acc hall hp
    have hx : pageMatchAnnot x = none := hall x (by simp)
    simp only [List.cons_append, scanLoop, hx]
    exact ih p post _ (fun q hq => hall q (by simp [hq])) hp

theorem scanLoop_none : ∀ (pages : List Page) (acc : List (List Char)),
    (∀ q ∈ pages, pageMatchAnnot q = none) → (scanLoop pages acc).2 = none := by
  intro pages
  induction pages with
  | nil => intro acc _; simp [scanLoop]
  | cons p rest ih =>
    intro acc hall
    have hp : pageMatchAnnot p = none := hall p (by simp)
    simp only [scanLoop, hp]
    exact ih _ (fun q hq => hall q (by simp [hq]))

/-! ## Resolver loop lemma -/

theorem resolveGo_fail (env : Nat → AttemptResult) (m a f : Nat)
    (h : (env a).isOk = false) :
    resolveGo env m a (f + 1) =
      if a < m - 1 then
        ((resolveGo env m (a + 1) f).1, (resolveGo env m (a + 1) f).2.1 + 1,
          2 ^ a :: (resolveGo env m (a + 1) f).2.2)
      else (none, 1, []) := by
  cases henv : env a
  · rw [henv] at h; simp [AttemptResult.isOk] at h
  all_goals simp [resolveGo, henv]

/-! ## Claim C1 — Redirect Resolver retry/backoff -/

/-- Claim C1 as stated is false: against a host timing out on every attempt,
the resolver sleeps 1 and then 2 time units — the stated schedule of 1, 2, 4
waits between attempts never occurs, because the source skips the wait after
the final attempt (`if attempt < max_retries - 1`). -/
theorem claim_C1_counterexample :
    (resolve_credly_short_url allTimeoutEnv shortGoUrl 3).waits = [1, 2] ∧
      ([1, 2] : List Nat) ≠ [1, 2, 4] := by
  exact ⟨rfl, by decide⟩

/-- Claim C1 (amended): for every short-form URL on the badge domain whose
every GET attempt fails, the resolver returns absent after exactly 3
attempts, waiting 2^attempt time units after each failed non-final attempt —
i.e. backoff waits of 1 and 2 between the three attempts, with no wait after
the final attempt. -/
theorem claim_C1_retry_backoff (env : Nat → AttemptResult) (u : List Char)
    (hfail : ∀ i, i < 3 → (env i).isOk = false)
    (hdom : pyInL credlyDomL (lower u) = true) :
    resolve_credly_short_url env u 3 = ⟨none, 3, [1, 2]⟩ := by
  have h2 := resolveGo_fail env 3 2 0 (hfail 2 (by norm_num))
  norm_num at h2
  have h1 := resolveGo_fail env 3 1 1 (hfail 1 (by norm_num))
  norm_num [h2] at h1
  have h0 := resolveGo_fail env 3 0 2 (hfail 0 (by norm_num))
  norm_num [h1] at h0
  simp [resolve_credly_short_url, hdom, h0]

/-- Witness for C1 (amended) at the all-timeout network and the example
short URL. -/
theorem claim_C1_retry_backoff_witness :
    resolve_credly_short_url allTimeoutEnv shortGoUrl 3 = ⟨none, 3, [1, 2]⟩ :=
  claim_C1_retry_backoff allTimeoutEnv shortGoUrl (fun _ _ => rfl) (by decide)

/-! ## Claim C7 — Redirect Resolver domain gate -/

/-- Claim C7 as stated is false: `c7Url = http://evil.example/credly.com/go/ab12cd`
has host `evil.example`, outside the badge-issuing domain, yet the resolver
issues a GET for it and returns a resolved URL, because the source tests the
substring `"credly.com" in short_url.lower()` over the whole URL, not the
host. -/
theorem claim_C7_counterexample :
    hostInCredlyDomain (urlHost c7Url) = false ∧
      (resolve_credly_short_url okNetEnv c7Url 3).reqCount = 1 ∧
      (resolve_credly_short_url okNetEnv c7Url 3).result = some longBadgeUrl :=
  ⟨rfl, rfl, rfl⟩

/-- Claim C7 (amended): a URL that does not contain `credly.com` as a
case-insensitive substring is rejected immediately: absent result, no GET
request, no backoff wait; equivalently, a request is attempted only for URLs
containing that substring. -/
theorem claim_C7_domain_gate (env : Nat → AttemptResult) (u : List Char)
    (h : pyInL credlyDomL (lower u) = false) :
    resolve_credly_short_url env u 3 = ⟨none, 0, []⟩ := by
  simp [resolve_credly_short_url, h]

/-- Witness for C7 (amended) at a URL on a foreign domain. -/
theorem claim_C7_domain_gate_witness :
    resolve_credly_short_url allTimeoutEnv ("https://example.com/go/ab12cd".toList) 3 =
      ⟨none, 0, []⟩ :=
  claim_C7_domain_gate allTimeoutEnv _ (by decide)

/-! ## Claim C2 — Document Scanner ordered fallback -/

/-- Claim C2 as stated is false: the annot test of the source is the
substring check `"credly.com" in link_uri.lower()`, not membership of the
URI's host in the expected domain.  On `evilPage` the scanner returns the
first annot target — hosted on `evil.example`, outside the badge domain —
ahead of the genuine credly.com badge link listed after it, and the text
fallback is suppressed even though the page text contains the short-form
URL. -/
theorem claim_C2_counterexample :
    hostInCredlyDomain (urlHost evilAnnotUrl) = false ∧
    hostInCredlyDomain (urlHost longBadgeUrl) = true ∧
    (process_certificate_pdf_complete allTimeoutEnv
      (.doc [evilPage])).result.found_url_in_pdf = some evilAnnotUrl ∧
    some evilAnnotUrl ≠ some longBadgeUrl ∧ evilAnnotUrl ≠ shortGoUrl :=
  ⟨rfl, rfl, rfl, by decide, by decide⟩

/-- Claim C2 (amended): the Document Scanner applies the ordered fallback
with the source's membership test — a link annot matches when its URI
contains `credly.com` as a case-insensitive substring (not necessarily with
a host in the expected domain): (a) scanning pages in order it returns the
first matching link-annot target, stopping at the first page holding one;
(b) only when no annot matches on any page is the returned candidate the
short-form pattern search of the concatenated text, falling back to the
long-form pattern; (c) in particular a page set with no link annots whose
text contains `https://www.credly.com/go/ab12cd` yields that short-form
URL. -/
theorem claim_C2_scanner_fallback :
    (∀ (env : Nat → AttemptResult) (pre : List Page) (p : Page) (post : List Page)
        (u : List Char), (∀ q ∈ pre, pageMatchAnnot q = none) →
        pageMatchAnnot p = some u →
        (process_certificate_pdf_complete env
          (.doc (pre ++ p :: post))).result.found_url_in_pdf = some u) ∧
    (∀ (env : Nat → AttemptResult) (pages : List Page), pages ≠ [] →
        (∀ q ∈ pages, pageMatchAnnot q = none) →
        (process_certificate_pdf_complete env (.doc pages)).result.found_url_in_pdf =
          (match reSearch matchShortAt (docText pages) with
           | some m => some m
           | none => reSearch matchLongAt (docText pages))) ∧
    (∀ env : Nat → AttemptResult,
        (process_certificate_pdf_complete env (.doc [c2Page])).result.found_url_in_pdf =
          some shortGoUrl) := by
  have hfound : ∀ (env : Nat → AttemptResult) (p : Page) (rest : List Page),
      (process_certificate_pdf_complete env (.doc (p :: rest))).result.found_url_in_pdf =
        docFound (p :: rest) := by
    intro env p rest
    simp [process_certificate_pdf_complete]
  have hB : ∀ (env : Nat → AttemptResult) (pages : List Page), pages ≠ [] →
      (∀ q ∈ pages, pageMatchAnnot q = none) →
      (process_certificate_pdf_complete env (.doc pages)).result.found_url_in_pdf =
        (match reSearch matchShortAt (docText pages) with
         | some m => some m
         | none => reSearch matchLongAt (docText pages)) := by
    intro env pages hne hall
    have hscan := scanLoop_none pages [] hall
    match pages, hne with
    | p :: rest, _ =>
      rw [hfound env p rest]
      simp [docFound, docText, hscan]
  refine ⟨?_, hB, ?_⟩
  · intro env pre p post u hall hp
    have hscan := scanLoop_found u pre p post [] hall hp
    match pre, hall with
    | [], _ =>
      rw [List.nil_append] at hscan ⊢
      rw [hfound env p post]
      simp [docFound, hscan]
    | x :: xs, hall =>
      rw [List.cons_append] at hscan ⊢
      rw [hfound env x (xs ++ p :: post)]
      simp [docFound, hscan]
  · intro env
    have hmem : ∀ q ∈ [c2Page], pageMatchAnnot q = none := by
      intro q hq
      simp only [List.mem_singleton] at hq
      subst hq
      rfl
    rw [hB env [c2Page] (by simp) hmem]
    rfl

/-- Witness for C2 at a single annotated page: the scanner returns its annot
target. -/
theorem claim_C2_scanner_fallback_witness :
    (process_certificate_pdf_complete allTimeoutEnv
      (.doc [annPage])).result.found_url_in_pdf = some longBadgeUrl :=
  claim_C2_scanner_fallback.1 allTimeoutEnv [] annPage [] longBadgeUrl (by simp) rfl

/-! ## Claim C6 — Resolution Pipeline absorbs failures -/

/-- Claim C6: the pipeline never propagates a failure: a missing file yields a
result with the three URL/identifier fields absent and a non-empty
diagnostic; an open failure and the internal `NameError` of a zero-page
document are likewise converted into diagnostic-only results. -/
theorem claim_C6_pipeline_total :
    (∀ env : Nat → AttemptResult,
      process_certificate_pdf_complete env .missing =
        ⟨⟨fnfMsg, none, none, none⟩, 0, []⟩ ∧ fnfMsg ≠ []) ∧
    (∀ (env : Nat → AttemptResult) (e : List Char),
      process_certificate_pdf_complete env (.openFail e) =
        ⟨⟨procErr e, none, none, none⟩, 0, []⟩ ∧ procErr e ≠ []) ∧
    (∀ env : Nat → AttemptResult,
      process_certificate_pdf_complete env (.doc []) =
        ⟨⟨procErr nameErrMsg, none, none, none⟩, 0, []⟩ ∧ procErr nameErrMsg ≠ []) := by
  refine ⟨fun env => ⟨rfl, by decide⟩, fun env e => ⟨rfl, ?_⟩, fun env => ⟨rfl, by decide⟩⟩
  simp [procErr]

/-! ## Claim C9 — GUID-shape invariant of returned identifiers -/

/-- Claim C9: the pipeline returns a non-absent identifier only if it matches
the canonical 8-4-4-4-12 hexadecimal GUID shape; no malformed identifier
propagates past the Identifier Extractor into a result. -/
theorem claim_C9_guid_invariant (env : Nat → AttemptResult) (inp : PdfInput)
    (g : List Char)
    (h : (process_certificate_pdf_complete env inp).result.credly_id = some g) :
    guidShape g = true := by
  match inp with
  | .missing => simp [process_certificate_pdf_complete] at h
  | .openFail e => simp [process_certificate_pdf_complete] at h
  | .doc pages =>
    match pages with
    | [] => simp [process_certificate_pdf_complete] at h
    | p :: rest =>
      simp only [process_certificate_pdf_complete] at h
      cases hrt : (routeFound env (docFound (p :: rest))).1 with
      | none => rw [hrt] at h; simp at h
      | some lu =>
        rw [hrt] at h
        by_cases hlu : lu.isEmpty
        · simp [hlu] at h
        · simp only [hlu, if_neg, Bool.false_eq_true, if_false] at h
          exact extract_guidShape lu g h

/-- Witness for C9: the long-URL annot page yields the example GUID, which is
GUID-shaped. -/
theorem claim_C9_guid_invariant_witness : guidShape guidStr.toList = true :=
  claim_C9_guid_invariant allTimeoutEnv (.doc [annPage]) guidStr.toList rfl

/-! ## Claim C10 — candidate URLs with neither segment -/

/-- Claim C10 as stated is false: `c10Url`'s path is `/profile`, containing
neither `/go/` nor `/badges/`, yet the pipeline invokes the Redirect Resolver
(3 GET requests under the all-timeout network), because the source tests the
two segment substrings against the whole URL and `/go/` occurs in the query
string. -/
theorem claim_C10_counterexample :
    pyInL goSegL (lower (urlPath c10Url)) = false ∧
    pyInL badgesSegL (lower (urlPath c10Url)) = false ∧
    (process_certificate_pdf_complete allTimeoutEnv
      (.doc [c10Page])).result.found_url_in_pdf = some c10Url ∧
    (process_certificate_pdf_complete allTimeoutEnv (.doc [c10Page])).reqCount = 3 ∧
    (3 : Nat) ≠ 0 :=
  ⟨rfl, rfl, rfl, rfl, by decide⟩

/-- Claim C10 (amended): when the candidate URL found in the document contains
neither `/go/` nor `/badges/` as a case-insensitive substring anywhere in the
URL, the result carries that URL as foundURL with resolvedURL and identifier
absent, and no redirect resolution is invoked (no request, no wait). -/
theorem claim_C10_nonbadge_candidate (env : Nat → AttemptResult) (pages : List Page)
    (u : List Char)
    (hfound : (process_certificate_pdf_complete env
      (.doc pages)).result.found_url_in_pdf = some u)
    (hgo : pyInL goSegL (lower u) = false)
    (hb : pyInL badgesSegL (lower u) = false) :
    (process_certificate_pdf_complete env (.doc pages)).result.final_long_url = none ∧
    (process_certificate_pdf_complete env (.doc pages)).result.credly_id = none ∧
    (process_certificate_pdf_complete env (.doc pages)).reqCount = 0 ∧
    (process_certificate_pdf_complete env (.doc pages)).waits = [] := by
  match pages with
  | [] => simp [process_certificate_pdf_complete] at hfound
  | p :: rest =>
    simp only [process_certificate_pdf_complete] at hfound ⊢
    rw [hfound]
    simp [routeFound, hgo, hb]

/-- Witness for C10 (amended) at a non-badge credly.com page link. -/
theorem claim_C10_nonbadge_candidate_witness :
    (process_certificate_pdf_complete allTimeoutEnv
      (.doc [nonBadgePage])).result.final_long_url = none ∧
    (process_certificate_pdf_complete allTimeoutEnv
      (.doc [nonBadgePage])).result.credly_id = none ∧
    (process_certificate_pdf_complete allTimeoutEnv (.doc [nonBadgePage])).reqCount = 0 ∧
    (process_certificate_pdf_complete allTimeoutEnv (.doc [nonBadgePage])).waits = [] :=
  claim_C10_nonbadge_candidate allTimeoutEnv [nonBadgePage] nonBadgeUrl rfl rfl rfl

/-! ## Claim C5 — Identifier Extractor contract -/

/-- Claim C5: for every input string the Identifier Extractor returns an
embedded GUID exactly when the string contains a
`/badges/<8-4-4-4-12 hex>/print` segment (delimiters matched
case-insensitively); any returned value is GUID-shaped and occurs literally
(original casing) between such delimiters in the input; on strings without
such a segment it returns absent.  As a total Lean function it raises
nothing. -/
theorem claim_C5_extractor_contract (s : List Char) :
    ((extract_credly_id_from_url s).isSome = true ↔ hasGuidSegment s) ∧
    (∀ g, extract_credly_id_from_url s = some g →
      guidShape g = true ∧
      ∃ pre b p post, s = pre ++ (b ++ (g ++ (p ++ post))) ∧
        lower b = "/badges/".toList ∧ lower p = "/print".toList) :=
  ⟨extract_isSome_iff s, fun g h => extract_sound s g h⟩

/-- Witness for C5 at the example long-form URL. -/
theorem claim_C5_extractor_contract_witness :
    hasGuidSegment longBadgeUrl ∧ guidShape guidStr.toList = true :=
  ⟨(claim_C5_extractor_contract longBadgeUrl).1.mp rfl,
   ((claim_C5_extractor_contract longBadgeUrl).2 guidStr.toList rfl).1⟩

/-! ## Claim C4 — Badge Verifier state rule and valid path -/

/-- Claim C4: with the transport delivering a parsed 2xx non-404 response
whose `data` payload is `bd`, a state different from `"accepted"` yields
Invalid with a reason containing the rendered state value, and an accepted
state with no expiration timestamp yields Valid with exactly `bd`, the
payload unmodified. -/
theorem claim_C4_state_rules (env : VerifyEnv) (bid : String) (r : HttpResp)
    (top bd : Json)
    (henv : env.http = .resp r) (h404 : r.statusCode ≠ 404)
    (hrfs : ¬(400 ≤ r.statusCode ∧ r.statusCode < 600))
    (hbody : r.body = some top)
    (hdata : pyGetD top "data" (.obj []) = .ok bd)
    (hbid : bid ≠ "") :
    (∀ state, pyGet bd "state" = .ok state → state ≠ Json.str "accepted" →
      verify env (some bid) = ⟨.ok none, [logState state]⟩ ∧
      strContains (pyStr state) (logState state) = true) ∧
    (pyGet bd "state" = .ok (Json.str "accepted") →
      pyGet bd "expires_at" = .ok Json.null →
      verify env (some bid) = ⟨.ok (some bd), [logValid bid]⟩) := by
  constructor
  · intro state hstate hne
    have hacc : isAccepted state = false := by
      cases state with
      | str s =>
        simp only [isAccepted, beq_eq_false_iff_ne, ne_eq]
        intro hs
        exact hne (by rw [hs])
      | null => rfl
      | bool b => rfl
      | num n => rfl
      | arr xs => rfl
      | obj fs => rfl
    constructor
    · simp [verify, henv, hbody, hdata, hstate, hbid, h404, hrfs, hacc]
    · simp only [logState]
      exact strContains_mid (pyStr state) _ _
  · intro hstate hexp
    simp [verify, henv, hbody, hdata, hstate, hexp, hbid, h404, hrfs, isAccepted,
      jsonTruthy]

/-- Witness for C4 at the accepted-no-expiration fixture: the full record is
returned unmodified. -/
theorem claim_C4_state_rules_witness :
    verify c4Env (some guidStr) = ⟨.ok (some acceptedData), [logValid guidStr]⟩ :=
  (claim_C4_state_rules c4Env guidStr ⟨200, some acceptedBody⟩ acceptedBody
    acceptedData rfl (by decide) (by decide) rfl rfl (by decide)).2 rfl rfl

/-! ## Claim C3 — Badge Verifier expiration rules -/

/-- Claim C3: with an accepted record carrying a (non-empty string)
expiration timestamp, an unparseable timestamp yields Invalid with a reason
containing the raw string; a parsed timestamp strictly earlier than the
current UTC instant yields Invalid with a reason containing the expiration
date; a parsed timestamp not strictly earlier (including exact equality)
leaves the result Valid. -/
theorem claim_C3_expiration_rules (env : VerifyEnv) (bid : String) (r : HttpResp)
    (top bd : Json) (sExp : String)
    (henv : env.http = .resp r) (h404 : r.statusCode ≠ 404)
    (hrfs : ¬(400 ≤ r.statusCode ∧ r.statusCode < 600))
    (hbody : r.body = some top)
    (hdata : pyGetD top "data" (.obj []) = .ok bd)
    (hstate : pyGet bd "state" = .ok (Json.str "accepted"))
    (hexp : pyGet bd "expires_at" = .ok (Json.str sExp))
    (hsne : sExp ≠ "")
    (hbid : bid ≠ "") :
    (env.fromiso sExp = none →
      verify env (some bid) = ⟨.ok none, [logParseFail (.str sExp)]⟩ ∧
      strContains sExp (logParseFail (.str sExp)) = true) ∧
    (∀ d, env.fromiso sExp = some d → d.epochSec < env.nowUtc →
      verify env (some bid) = ⟨.ok none, [logExpired d.dateRepr]⟩ ∧
      strContains d.dateRepr (logExpired d.dateRepr) = true) ∧
    (∀ d, env.fromiso sExp = some d → ¬(d.epochSec < env.nowUtc) →
      verify env (some bid) = ⟨.ok (some bd), [logValid bid]⟩) := by
  refine ⟨?_, ?_, ?_⟩
  · intro hiso
    constructor
    · simp [verify, henv, hbody, hdata, hstate, hexp, hiso, hbid, h404, hrfs,
        isAccepted, jsonTruthy, hsne]
    · simp only [logParseFail, pyStr]
      exact strContains_mid sExp _ _
  · intro d hiso hlt
    constructor
    · simp [verify, henv, hbody, hdata, hstate, hexp, hiso, hlt, hbid, h404, hrfs,
        isAccepted, jsonTruthy, hsne]
    · simp only [logExpired]
      exact strContains_mid d.dateRepr _ _
  · intro d hiso hnlt
    simp [verify, henv, hbody, hdata, hstate, hexp, hiso, hnlt, hbid, h404, hrfs,
      isAccepted, jsonTruthy, hsne]

/-- Witness for C3 at the fixture expiring 2020-01-01: Invalid with a reason
referencing that date. -/
theorem claim_C3_expiration_rules_witness :
    verify c3Env (some guidStr) = ⟨.ok none, [logExpired "2020-01-01"]⟩ ∧
    strContains "2020-01-01" (logExpired "2020-01-01") = true :=
  (claim_C3_expiration_rules c3Env guidStr ⟨200, some expiredBody⟩ expiredBody
    expiredData "2020-01-01T00:00:00+00:00" rfl (by decide) (by decide) rfl rfl rfl
    rfl (by decide) (by decide)).2.1 ⟨1577836800, "2020-01-01"⟩ rfl (by decide)

/-! ## Claim C8 — Badge Verifier absorbs all failures (code bug) -/

/-- Claim C8 is right about the intent but the code violates it: a 200
response whose body parses as JSON with `data` equal to the number 5 makes
`verify` raise an uncaught `AttributeError` at `badge_data.get('state')`
(src/Credliy.py line 39), contradicting its own docstring ("returns None if
the verification fails for any reason") instead of returning an Invalid
result. -/
theorem claim_C8_attribute_error_crash :
    verify c8Env (some guidStr) = ⟨.error "AttributeError", []⟩ := rfl

end SmartStudentHub
